import Mathlib

/-!
Verification of the XGBoost-JSON frontend (`src/frontend/xgboost_json.cc`).

The frontend is an event-driven (SAX-style) JSON parser: a stack of
schema-aware handlers receives tokenizer events and incrementally builds a
tree-ensemble model.  We embed it in big-step form: a JSON document is a
`JValue`, and each handler becomes a function that consumes the members of
the one JSON value the handler is responsible for (this is exactly the slice
of the event stream the handler sees between its push and its pop).  The
unbounded reconstruction `while` loop is embedded with an explicit fuel
parameter.  Out-of-bounds vector reads (undefined behaviour in the C++) are
modelled with `Option`-valued lookups.  `double` values, which the frontend
only copies and never computes with, are an abstract type `α`; the external
C library conversions `atoi`/`strtof` and the external helpers
`TransformGlobalBiasToMargin`/`SetPredTransform` (declared in headers outside
this translation unit) are abstract function parameters.
-/

namespace XGBoostJson

/-- Comparison operators of the output tree container (`treelite::Operator`);
the frontend only ever produces `kLT` ("strictly less than"). -/
inductive Operator where
  | kEQ
  | kLT
  | kLE
  | kGT
  | kGE
deriving DecidableEq, Repr

/-- A JSON value, the big-step view of the tokenizer's event stream: the
handler that consumes one JSON value sees exactly the events of that value.
Numeric events keep the tokenizer's kinds (signed integer, unsigned integer,
double); `α` stands for double-precision values. -/
inductive JValue (α : Type) where
  | null : JValue α
  | bool (b : Bool) : JValue α
  | int (n : Int) : JValue α
  | unsigned (n : Nat) : JValue α
  | double (x : α) : JValue α
  | str (s : String) : JValue α
  | arr (elems : List (JValue α)) : JValue α
  | obj (members : List (String × JValue α)) : JValue α

variable {α β : Type}

/-! ## Output tree container

Modelled from the spec: the output model's tree container (`treelite::Tree`)
is an external collaborator, declared outside this translation unit.  Per the
spec it "exposes node-allocation and node-mutation operations (add children,
mark leaf, set split, set gain, set sum-of-statistics) and node ID assignment
for a newly created binary tree": new IDs are assigned consecutively at
allocation time, and each node is either unset, a leaf with a value, or a
numerical split. -/

/-- Modelled from the spec: the contents of one container node — initially
unset, later marked as a leaf or as a numerical split. -/
inductive NodeContent (α : Type) where
  | empty : NodeContent α
  | leaf (value : α) : NodeContent α
  | split (split_index : Int) (threshold : α) (default_left : Bool) (cmp : Operator) :
      NodeContent α

/-- Modelled from the spec: one allocated node of the output tree container,
with its child links and per-node attributes. -/
structure XNode (α : Type) where
  cleft : Option Nat := none
  cright : Option Nat := none
  content : NodeContent α := .empty
  gain : Option α := none
  sum_hess : Option α := none

/-- A freshly allocated, still unset node. -/
def XNode.init : XNode α := {}

/-- Modelled from the spec: the output tree container; node IDs ("new" IDs)
are positions in the allocation list. -/
structure XTree (α : Type) where
  nodes : List (XNode α)

/-- `Tree::Init`: a tree with a single freshly allocated root node (new ID 0). -/
def XTree.Init : XTree α := ⟨[XNode.init]⟩

/-- Update one node in place (out-of-range IDs leave the tree unchanged;
the frontend only ever touches IDs the container itself assigned). -/
def XTree.modifyNode (t : XTree α) (nid : Nat) (f : XNode α → XNode α) : XTree α :=
  ⟨t.nodes.set nid (f (t.nodes[nid]?.getD XNode.init))⟩

/-- `Tree::AddChilds`: allocate two fresh children for node `nid`; the new
IDs are the next two allocation positions. -/
def XTree.AddChilds (t : XTree α) (nid : Nat) : XTree α :=
  let fresh := t.nodes.length
  ⟨(t.modifyNode nid fun nd =>
      { nd with cleft := some fresh, cright := some (fresh + 1) }).nodes
    ++ [XNode.init, XNode.init]⟩

/-- `Tree::SetLeaf`: mark node `nid` as a leaf with the given value. -/
def XTree.SetLeaf (t : XTree α) (nid : Nat) (value : α) : XTree α :=
  t.modifyNode nid fun nd => { nd with content := .leaf value }

/-- `Tree::SetNumericalSplit`: mark node `nid` as a numerical split. -/
def XTree.SetNumericalSplit (t : XTree α) (nid : Nat) (split_index : Int)
    (threshold : α) (default_left : Bool) (cmp : Operator) : XTree α :=
  t.modifyNode nid fun nd =>
    { nd with content := .split split_index threshold default_left cmp }

/-- `Tree::SetGain`: record the split gain of node `nid`. -/
def XTree.SetGain (t : XTree α) (nid : Nat) (gain : α) : XTree α :=
  t.modifyNode nid fun nd => { nd with gain := some gain }

/-- `Tree::SetSumHess`: record the sum-of-statistics of node `nid`. -/
def XTree.SetSumHess (t : XTree α) (nid : Nat) (sum_hess : α) : XTree α :=
  t.modifyNode nid fun nd => { nd with sum_hess := some sum_hess }

/-- `Tree::LeftChild`: the left-child ID of node `nid`, if assigned. -/
def XTree.LeftChild (t : XTree α) (nid : Nat) : Option Nat :=
  t.nodes[nid]?.bind fun nd => nd.cleft

/-- `Tree::RightChild`: the right-child ID of node `nid`, if assigned. -/
def XTree.RightChild (t : XTree α) (nid : Nat) : Option Nat :=
  t.nodes[nid]?.bind fun nd => nd.cright

/-! ## RegTreeHandler state and tree reconstruction -/

/-- Accumulator state of `RegTreeHandler`: the declared node count (captured
from the nested "tree_param" object) and the ten parallel arrays. -/
structure RegTreeState (α : Type) where
  num_nodes : Int := 0
  loss_changes : List α := []
  sum_hessian : List α := []
  base_weights : List α := []
  leaf_child_counts : List Int := []
  left_children : List Int := []
  right_children : List Int := []
  parents : List Int := []
  split_indices : List Int := []
  split_conditions : List α := []
  default_left : List Bool := []

/-- Indexing a `std::vector` with a C++ `int` index: out-of-range access is
undefined behaviour in the source, embedded as `none`. -/
def intGet (xs : List β) (i : Int) : Option β :=
  if i < 0 then none else xs[i.toNat]?

/-- The breadth-first reconstruction `while` loop of
`RegTreeHandler::EndObject`, with an explicit fuel bound standing for the
unbounded C++ loop.  The queue holds (old ID, new ID) pairs; each iteration
dequeues one pair, marks the new node as a leaf or as a split from the
parallel arrays at the old ID, and enqueues the children of a split. -/
def reconstructLoop (st : RegTreeState α) :
    Nat → List (Int × Nat) → XTree α → Option (XTree α)
  | _, [], t => some t
  | 0, _ :: _, _ => none
  | fuel + 1, (old_id, new_id) :: Q, t => do
    let lc ← intGet st.left_children old_id
    if lc = -1 then
      let value ← intGet st.split_conditions old_id
      let sh ← intGet st.sum_hessian old_id
      reconstructLoop st fuel Q ((t.SetLeaf new_id value).SetSumHess new_id sh)
    else
      let rc ← intGet st.right_children old_id
      let idx ← intGet st.split_indices old_id
      let thr ← intGet st.split_conditions old_id
      let dl ← intGet st.default_left old_id
      let g ← intGet st.loss_changes old_id
      let sh ← intGet st.sum_hessian old_id
      let t₁ := ((t.AddChilds new_id).SetNumericalSplit new_id idx thr dl .kLT).SetGain new_id g
      let l ← t₁.LeftChild new_id
      let r ← t₁.RightChild new_id
      reconstructLoop st fuel (Q ++ [(lc, l), (rc, r)]) (t₁.SetSumHess new_id sh)

/-- `RegTreeHandler::EndObject`: initialize the output tree, reject unless all
ten parallel arrays have length `num_nodes` (the C++ compares the `int`
`num_nodes` with `size_t` lengths; over realizable lengths this is the integer
comparison written here), then run the breadth-first reconstruction seeded
with (old ID 0, new ID 0). -/
def RegTreeHandler.EndObject (fuel : Nat) (st : RegTreeState α) : Option (XTree α) :=
  if st.num_nodes ≠ (st.loss_changes.length : Int) ∨
     st.num_nodes ≠ (st.sum_hessian.length : Int) ∨
     st.num_nodes ≠ (st.base_weights.length : Int) ∨
     st.num_nodes ≠ (st.leaf_child_counts.length : Int) ∨
     st.num_nodes ≠ (st.left_children.length : Int) ∨
     st.num_nodes ≠ (st.right_children.length : Int) ∨
     st.num_nodes ≠ (st.parents.length : Int) ∨
     st.num_nodes ≠ (st.split_indices.length : Int) ∨
     st.num_nodes ≠ (st.split_conditions.length : Int) ∨
     st.num_nodes ≠ (st.default_left.length : Int) then
    none
  else
    reconstructLoop st fuel [(0, 0)] XTree.Init
/-! ## Model under construction -/

/-- The model's global parameter block (`treelite::ModelParam`): the frontend
writes the global bias and, on learner close, the prediction-transform
selector derived from the objective name. -/
structure ModelParam (α : Type) where
  global_bias : α
  pred_transform : String := ""

/-- The model under construction (`treelite::ModelImpl`): global parameters
plus the ordered sequence of output trees. -/
structure Model (α : Type) where
  param : ModelParam α
  num_output_group : Int := 1
  num_feature : Int := 0
  random_forest_flag : Bool := false
  trees : List (XTree α) := []

/-- The external functions the frontend calls but does not define: the C
library conversions `atoi` and `strtof`, and the helpers
`TransformGlobalBiasToMargin` and `SetPredTransform` from `xgboost.h`
(outside this translation unit).  The embedding is parametric in them. -/
structure Externals (α : Type) where
  atoi : String → Int
  strtof : String → α
  transformGlobalBiasToMargin : ModelParam α → ModelParam α
  setPredTransform : String → ModelParam α → ModelParam α

/-- One member of a JSON object: its key and its value. -/
abbrev JMember (α : Type) := String × JValue α

/-! ## Array accumulators

Modelled from the spec: `ArrayHandler<T>` is declared in the header
(`xgboost_json.h`, outside this translation unit); per the spec it "accepts
primitive events of the expected scalar kind, appending each to an ordered
sequence; rejects (returns failure) on encountering a mismatched event kind
or unexpected nested object; pops on EndArray". -/

/-- Modelled from the spec: `ArrayHandler<double>` over one JSON array. -/
def ArrayHandler.doubles : List (JValue α) → Option (List α) :=
  List.mapM fun v =>
    match v with
    | .double x => some x
    | _ => none

/-- Modelled from the spec: `ArrayHandler<int>` over one JSON array (the
tokenizer reports non-negative integers as unsigned events, so both integer
event kinds are the expected scalar kind here). -/
def ArrayHandler.ints : List (JValue α) → Option (List Int) :=
  List.mapM fun v =>
    match v with
    | .int n => some n
    | .unsigned n => some (n : Int)
    | _ => none

/-- Modelled from the spec: `ArrayHandler<unsigned>` over one JSON array. -/
def ArrayHandler.unsigneds : List (JValue α) → Option (List Nat) :=
  List.mapM fun v =>
    match v with
    | .unsigned n => some n
    | _ => none

/-- Modelled from the spec: `ArrayHandler<bool>` over one JSON array. -/
def ArrayHandler.bools : List (JValue α) → Option (List Bool) :=
  List.mapM fun v =>
    match v with
    | .bool b => some b
    | _ => none

/-! ## TreeParamHandler -/

/-- `TreeParamHandler::String`: "num_feature" is recognized but ignored,
"num_nodes" assigns `atoi(str)` to the output, and the deprecated
"size_leaf_vector" / "num_deleted" are recognized but ignored; any other key
is rejected.  The short-circuit order matches the source. -/
def TreeParamHandler.String (ext : Externals α) (cur_key s : String)
    (output : Int) : Option Int :=
  if cur_key = "num_feature" then some output
  else if cur_key = "num_nodes" then some (ext.atoi s)
  else if cur_key = "size_leaf_vector" then some output
  else if cur_key = "num_deleted" then some output
  else none

/-- One member of a "tree_param" object: only string values are handled
(`TreeParamHandler` overrides only the string event; every other value kind
falls through to the rejecting base handler). -/
def TreeParamHandler.Member (ext : Externals α) (output : Int) :
    JMember α → Option Int
  | (k, .str s) => TreeParamHandler.String ext k s output
  | _ => none

/-- `TreeParamHandler` over one "tree_param" object (EndObject pops). -/
def TreeParamHandler.run (ext : Externals α) (init : Int)
    (ms : List (JMember α)) : Option Int :=
  ms.foldlM (TreeParamHandler.Member ext) init

/-! ## RegTreeHandler -/

/-- `RegTreeHandler::StartArray`: dispatch on the current key, in the source's
short-circuit order; "categories" and "split_type" are swallowed by
`IgnoreHandler`, each other recognized key appends the accumulated elements
to the corresponding parallel array. -/
def RegTreeHandler.StartArray (st : RegTreeState α) (k : String)
    (elems : List (JValue α)) : Option (RegTreeState α) :=
  if k = "loss_changes" then do
    let xs ← ArrayHandler.doubles elems
    some { st with loss_changes := st.loss_changes ++ xs }
  else if k = "sum_hessian" then do
    let xs ← ArrayHandler.doubles elems
    some { st with sum_hessian := st.sum_hessian ++ xs }
  else if k = "base_weights" then do
    let xs ← ArrayHandler.doubles elems
    some { st with base_weights := st.base_weights ++ xs }
  else if k = "categories" then some st
  else if k = "leaf_child_counts" then do
    let xs ← ArrayHandler.ints elems
    some { st with leaf_child_counts := st.leaf_child_counts ++ xs }
  else if k = "left_children" then do
    let xs ← ArrayHandler.ints elems
    some { st with left_children := st.left_children ++ xs }
  else if k = "right_children" then do
    let xs ← ArrayHandler.ints elems
    some { st with right_children := st.right_children ++ xs }
  else if k = "parents" then do
    let xs ← ArrayHandler.ints elems
    some { st with parents := st.parents ++ xs }
  else if k = "split_indices" then do
    let xs ← ArrayHandler.ints elems
    some { st with split_indices := st.split_indices ++ xs }
  else if k = "split_type" then some st
  else if k = "split_conditions" then do
    let xs ← ArrayHandler.doubles elems
    some { st with split_conditions := st.split_conditions ++ xs }
  else if k = "default_left" then do
    let xs ← ArrayHandler.bools elems
    some { st with default_left := st.default_left ++ xs }
  else none

/-- One member of a tree object: arrays go to `StartArray` dispatch, the
"tree_param" object to `TreeParamHandler`, an unsigned value is accepted only
under the key "id" (`RegTreeHandler::Uint`); everything else is rejected. -/
def RegTreeHandler.Member (ext : Externals α) (st : RegTreeState α) :
    JMember α → Option (RegTreeState α)
  | (k, .arr elems) => RegTreeHandler.StartArray st k elems
  | (k, .obj ms) =>
    if k = "tree_param" then do
      let n ← TreeParamHandler.run ext st.num_nodes ms
      some { st with num_nodes := n }
    else none
  | (k, .unsigned _) => if k = "id" then some st else none
  | _ => none

/-- `RegTreeHandler` over one tree object: accumulate members, then
reconstruct the output tree on EndObject. -/
def RegTreeHandler.run (ext : Externals α) (fuel : Nat)
    (ms : List (JMember α)) : Option (XTree α) := do
  let st ← ms.foldlM (RegTreeHandler.Member ext) {}
  RegTreeHandler.EndObject fuel st

/-! ## GBTreeModelHandler -/

/-- One member of a "model" object: "trees" is an array of tree objects, each
handled by `RegTreeHandler` and appended to the model's tree sequence;
"tree_info" and "gbtree_model_param" are swallowed by `IgnoreHandler`. -/
def GBTreeModelHandler.Member (ext : Externals α) (fuel : Nat) (m : Model α) :
    JMember α → Option (Model α)
  | (k, .arr elems) =>
    if k = "trees" then do
      let ts ← elems.mapM fun v =>
        match v with
        | .obj tms => RegTreeHandler.run ext fuel tms
        | _ => none
      some { m with trees := m.trees ++ ts }
    else if k = "tree_info" then some m
    else none
  | (k, .obj _) => if k = "gbtree_model_param" then some m else none
  | _ => none

/-- `GBTreeModelHandler` over one "model" object (EndObject pops). -/
def GBTreeModelHandler.run (ext : Externals α) (fuel : Nat) (m : Model α)
    (ms : List (JMember α)) : Option (Model α) :=
  ms.foldlM (GBTreeModelHandler.Member ext fuel) m

/-! ## GradientBoosterHandler -/

/-- `GradientBoosterHandler::String`: a string member is accepted only under
the key "name" and only with the value "gbtree"; any other booster type is
rejected (unsupported booster). -/
def GradientBoosterHandler.String (cur_key name : String) : Bool :=
  if cur_key ≠ "name" then false
  else if name ≠ "gbtree" then false
  else true

/-- One member of a "gradient_booster" object: the booster-name string check,
or the nested "model" object; anything else is rejected. -/
def GradientBoosterHandler.Member (ext : Externals α) (fuel : Nat) (m : Model α) :
    JMember α → Option (Model α)
  | (k, .str s) => if GradientBoosterHandler.String k s then some m else none
  | (k, .obj ms) => if k = "model" then GBTreeModelHandler.run ext fuel m ms else none
  | _ => none

/-- `GradientBoosterHandler` over one "gradient_booster" object. -/
def GradientBoosterHandler.run (ext : Externals α) (fuel : Nat) (m : Model α)
    (ms : List (JMember α)) : Option (Model α) :=
  ms.foldlM (GradientBoosterHandler.Member ext fuel) m

/-! ## ObjectiveHandler -/

/-- One member of an "objective" object: `ObjectiveHandler::String` captures
the "name" string; the nested hyperparameter objects of the six loss families
are swallowed by `IgnoreHandler`; anything else is rejected. -/
def ObjectiveHandler.Member (objective : String) : JMember α → Option String
  | (k, .str s) => if k = "name" then some s else none
  | (k, .obj _) =>
    if k = "reg_loss_param" ∨ k = "poisson_regression_param" ∨
       k = "tweedie_regression_param" ∨ k = "softmax_multiclass_param" ∨
       k = "lambda_rank_param" ∨ k = "aft_loss_param" then
      some objective
    else none
  | _ => none

/-- `ObjectiveHandler` over one "objective" object. -/
def ObjectiveHandler.run (init : String) (ms : List (JMember α)) : Option String :=
  ms.foldlM ObjectiveHandler.Member init

/-! ## LearnerParamHandler -/

/-- `LearnerParamHandler::String`: "base_score" assigns `strtof(str)` to the
global bias, "num_class" assigns `max(atoi(str), 1)` to the number of output
groups, "num_feature" assigns `atoi(str)`; any other key is rejected. -/
def LearnerParamHandler.String (ext : Externals α) (cur_key s : String)
    (m : Model α) : Option (Model α) :=
  if cur_key = "base_score" then
    some { m with param := { m.param with global_bias := ext.strtof s } }
  else if cur_key = "num_class" then
    some { m with num_output_group := max (ext.atoi s) 1 }
  else if cur_key = "num_feature" then
    some { m with num_feature := ext.atoi s }
  else none

/-- One member of a "learner_model_param" object: only string values are
handled. -/
def LearnerParamHandler.Member (ext : Externals α) (m : Model α) :
    JMember α → Option (Model α)
  | (k, .str s) => LearnerParamHandler.String ext k s m
  | _ => none

/-! ## LearnerHandler -/

/-- Accumulator state of `LearnerHandler`: the model under construction and
the captured objective name. -/
structure LearnerState (α : Type) where
  output : Model α
  objective : String := ""

/-- One member of a "learner" object: the recognized nested objects in the
source's short-circuit order ("attributes" is swallowed by `IgnoreHandler`);
anything else is rejected. -/
def LearnerHandler.Member (ext : Externals α) (fuel : Nat) (st : LearnerState α) :
    JMember α → Option (LearnerState α)
  | (k, .obj ms) =>
    if k = "learner_model_param" then do
      let m ← ms.foldlM (LearnerParamHandler.Member ext) st.output
      some { st with output := m }
    else if k = "gradient_booster" then do
      let m ← GradientBoosterHandler.run ext fuel st.output ms
      some { st with output := m }
    else if k = "objective" then do
      let o ← ObjectiveHandler.run st.objective ms
      some { st with objective := o }
    else if k = "attributes" then some st
    else none
  | _ => none

/-- `LearnerHandler::EndObject`: apply `SetPredTransform` with the captured
objective name to the model's parameter block, then pop. -/
def LearnerHandler.EndObject (ext : Externals α) (st : LearnerState α) : Model α :=
  { st.output with param := ext.setPredTransform st.objective st.output.param }

/-- `LearnerHandler` over one "learner" object. -/
def LearnerHandler.run (ext : Externals α) (fuel : Nat) (m : Model α)
    (ms : List (JMember α)) : Option (Model α) := do
  let st ← ms.foldlM (LearnerHandler.Member ext fuel) { output := m }
  some (LearnerHandler.EndObject ext st)

/-! ## XGBoostModelHandler -/

/-- Accumulator state of `XGBoostModelHandler`: the model under construction
and the parsed "version" sequence. -/
structure XGBoostModelState (α : Type) where
  output : Model α
  version : List Nat := []

/-- One member of the top-level model object: the "version" array of unsigned
integers, or the "learner" object; anything else is rejected. -/
def XGBoostModelHandler.Member (ext : Externals α) (fuel : Nat)
    (st : XGBoostModelState α) : JMember α → Option (XGBoostModelState α)
  | (k, .arr elems) =>
    if k = "version" then do
      let vs ← ArrayHandler.unsigneds elems
      some { st with version := st.version ++ vs }
    else none
  | (k, .obj ms) =>
    if k = "learner" then do
      let m ← LearnerHandler.run ext fuel st.output ms
      some { st with output := m }
    else none
  | _ => none

/-- `XGBoostModelHandler::EndObject`: reject unless the member count is
exactly 2; clear the random-forest flag; read the leading element of the
parsed version sequence (an unchecked `version[0]` in the source — undefined
behaviour on an empty sequence, embedded as `none`); if it is ≥ 1, apply
`TransformGlobalBiasToMargin` to the parameter block; pop. -/
def XGBoostModelHandler.EndObject (ext : Externals α) (memberCount : Nat)
    (st : XGBoostModelState α) : Option (Model α) :=
  if memberCount ≠ 2 then none
  else
    let m := { st.output with random_forest_flag := false }
    match st.version.head? with
    | none => none
    | some v0 =>
      some (if 1 ≤ v0 then { m with param := ext.transformGlobalBiasToMargin m.param } else m)

/-- `XGBoostModelHandler` over the top-level model object: the member count
reported by the tokenizer at EndObject is the number of members. -/
def XGBoostModelHandler.run (ext : Externals α) (fuel : Nat) (m : Model α)
    (dms : List (JMember α)) : Option (Model α) := do
  let st ← dms.foldlM (XGBoostModelHandler.Member ext fuel) { output := m }
  XGBoostModelHandler.EndObject ext dms.length st

/-! ## RootHandler and ParseStream -/

/-- `RootHandler::StartObject`: the document must be a JSON object, handed to
`XGBoostModelHandler`; any other top-level value is rejected. -/
def RootHandler.StartObject (ext : Externals α) (fuel : Nat) (m : Model α) :
    JValue α → Option (Model α)
  | .obj dms => XGBoostModelHandler.run ext fuel m dms
  | _ => none

/-- `ParseStream`: drive the handler stack over one document and yield the
final model; the model starts default-constructed, and any handler rejection
makes the whole load fail with no model produced. -/
def ParseStream [Inhabited α] (ext : Externals α) (fuel : Nat)
    (doc : JValue α) : Option (Model α) :=
  RootHandler.StartObject ext fuel { param := { global_bias := default } } doc

/-! ## Specification-side view of one decoded tree

The following definitions follow the spec's words (§3 "Raw Tree Arrays",
§4.4 "Tree Reconstruction"), to be compared with the reconstruction defined
above from the source. -/

/-- The abstract binary tree a well-formed set of parallel arrays encodes:
a leaf carries its value and sum-of-statistics; an internal node carries its
feature index, threshold, default-branch flag, comparison operator, gain and
sum-of-statistics, and its two subtrees. -/
inductive BTree (α : Type) where
  | leaf (value sum_hess : α) : BTree α
  | node (split_index : Int) (threshold : α) (default_left : Bool)
      (cmp : Operator) (gain sum_hess : α) (left right : BTree α) : BTree α

/-- Number of nodes of an abstract binary tree. -/
def BTree.size : BTree α → Nat
  | .leaf _ _ => 1
  | .node _ _ _ _ _ _ l r => 1 + l.size + r.size

/-- `Decodes st i bt`: following the spec's words, old ID `i` of the parallel
arrays encodes the abstract tree `bt`: a position with `left_children[i] = -1`
is a leaf with value `split_conditions[i]` and sum-of-statistics
`sum_hessian[i]`; any other position is an internal node splitting on feature
`split_indices[i]` at threshold `split_conditions[i]` with default-branch
flag `default_left[i]`, strictly-less-than comparison, gain `loss_changes[i]`
and sum-of-statistics `sum_hessian[i]`, whose children are the old IDs
`left_children[i]` and `right_children[i]`.  A derivation exists exactly when
the arrays encode a well-formed (finite, in-bounds) tree at `i`. -/
inductive Decodes (st : RegTreeState α) : Int → BTree α → Prop
  | leaf {i : Int} {value sum_hess : α} :
      intGet st.left_children i = some (-1) →
      intGet st.split_conditions i = some value →
      intGet st.sum_hessian i = some sum_hess →
      Decodes st i (.leaf value sum_hess)
  | node {i lc rc idx : Int} {thr : α} {dl : Bool} {gain sum_hess : α}
      {bl br : BTree α} :
      intGet st.left_children i = some lc →
      lc ≠ -1 →
      intGet st.right_children i = some rc →
      intGet st.split_indices i = some idx →
      intGet st.split_conditions i = some thr →
      intGet st.default_left i = some dl →
      intGet st.loss_changes i = some gain →
      intGet st.sum_hessian i = some sum_hess →
      Decodes st lc bl →
      Decodes st rc br →
      Decodes st i (.node idx thr dl .kLT gain sum_hess bl br)

/-- `ExtractsTo t nid bt`: reading the output tree container `t` from new ID
`nid` yields the abstract tree `bt`: the node is marked as a leaf with the
matching value and sum-of-statistics, or as a numerical split with the
matching attributes whose assigned children extract to the subtrees. -/
inductive ExtractsTo (t : XTree α) : Nat → BTree α → Prop
  | leaf {nid : Nat} {value sum_hess : α} {nd : XNode α} :
      t.nodes[nid]? = some nd →
      nd.content = .leaf value →
      nd.sum_hess = some sum_hess →
      ExtractsTo t nid (.leaf value sum_hess)
  | node {nid : Nat} {idx : Int} {thr : α} {dl : Bool} {cmp : Operator}
      {gain sum_hess : α} {l r : Nat} {bl br : BTree α} {nd : XNode α} :
      t.nodes[nid]? = some nd →
      nd.content = .split idx thr dl cmp →
      nd.gain = some gain →
      nd.sum_hess = some sum_hess →
      nd.cleft = some l →
      nd.cright = some r →
      ExtractsTo t l bl →
      ExtractsTo t r br →
      ExtractsTo t nid (.node idx thr dl cmp gain sum_hess bl br)

/-- All ten parallel arrays have length `num_nodes`. -/
def RegTreeState.lengthsOk (st : RegTreeState α) : Prop :=
  (st.loss_changes.length : Int) = st.num_nodes ∧
  (st.sum_hessian.length : Int) = st.num_nodes ∧
  (st.base_weights.length : Int) = st.num_nodes ∧
  (st.leaf_child_counts.length : Int) = st.num_nodes ∧
  (st.left_children.length : Int) = st.num_nodes ∧
  (st.right_children.length : Int) = st.num_nodes ∧
  (st.parents.length : Int) = st.num_nodes ∧
  (st.split_indices.length : Int) = st.num_nodes ∧
  (st.split_conditions.length : Int) = st.num_nodes ∧
  (st.default_left.length : Int) = st.num_nodes

/-! ## Concrete example inputs

Used by the closed instances of the theorems below; `α` is instantiated with
`Int` as a stand-in for double values, which the frontend never computes
with. -/

/-- A concrete choice of the external functions over `Int` doubles: the bias
back-transform adds 1 (so applying it is observable), the prediction
transform selector stores the objective name. -/
def extC : Externals Int :=
  { atoi := fun _ => 0
    strtof := fun _ => 0
    transformGlobalBiasToMargin := fun p => { p with global_bias := p.global_bias + 1 }
    setPredTransform := fun s p => { p with pred_transform := s } }

/-- The spec's three-node example tree: root split on feature 5, two leaf
children. -/
def st3 : RegTreeState Int :=
  { num_nodes := 3
    loss_changes := [10, 0, 0]
    sum_hessian := [7, 3, 4]
    base_weights := [0, 0, 0]
    leaf_child_counts := [0, 0, 0]
    left_children := [1, -1, -1]
    right_children := [2, -1, -1]
    parents := [-1, 0, 0]
    split_indices := [5, 0, 0]
    split_conditions := [100, 11, 22]
    default_left := [true, false, false] }

/-- The abstract tree the three-node example encodes. -/
def bt3 : BTree Int :=
  .node 5 100 true .kLT 10 7 (.leaf 11 3) (.leaf 22 4)

/-- A minimal valid document: version 1 plus an empty learner object. -/
def docC9 : JValue Int :=
  .obj [("version", .arr [.unsigned 1]), ("learner", .obj [])]

/-- The model `docC9` parses to under `extC`. -/
def mC9 : Model Int :=
  { param := { global_bias := 1, pred_transform := "" }
    num_output_group := 1
    num_feature := 0
    random_forest_flag := false
    trees := [] }

/-- A document with exactly the two recognized top-level members whose
"version" array is empty. -/
def docC5 : JValue Int :=
  .obj [("version", .arr []), ("learner", .obj [])]

/-- A document whose gradient booster is "gblinear". -/
def docC4 : JValue Int :=
  .obj [("version", .arr [.unsigned 1]),
        ("learner", .obj [("gradient_booster", .obj [("name", .str "gblinear")])])]

/-! ## Helper lemmas -/

/-- If one element of a list always fails a monadic fold step (in `Option`),
the whole fold fails: a single rejected event aborts the parse. -/
theorem foldlM_eq_none {σ γ : Type} (f : σ → γ → Option σ) (b : γ)
    (hb : ∀ s, f s b = none) :
    ∀ (l : List γ) (init : σ), b ∈ l → l.foldlM f init = none := by
  intro l
  induction l with
  | nil => intro init h; cases h
  | cons x xs ih =>
    intro init h
    rw [List.foldlM_cons]
    rcases List.mem_cons.mp h with rfl | hmem
    · rw [hb]; rfl
    · cases hx : f init x with
      | none => rfl
      | some s => simpa using ih s hmem

/-- A "name" member with a non-"gbtree" booster type is rejected by
`GradientBoosterHandler`. -/
theorem gb_member_bad_name (ext : Externals α) (fuel : Nat) (s : String)
    (hs : s ≠ "gbtree") (m : Model α) :
    GradientBoosterHandler.Member ext fuel m ("name", .str s) = none := by
  simp [GradientBoosterHandler.Member, GradientBoosterHandler.String, hs]

/-- A "gradient_booster" object containing a non-"gbtree" "name" member makes
the whole gradient-booster handler fail. -/
theorem gb_run_bad_name (ext : Externals α) (fuel : Nat) (s : String)
    (hs : s ≠ "gbtree") (gms : List (JMember α))
    (hn : ("name", JValue.str s) ∈ gms) (m : Model α) :
    GradientBoosterHandler.run ext fuel m gms = none :=
  foldlM_eq_none _ _ (gb_member_bad_name ext fuel s hs) gms m hn

/-- The failure of the gradient-booster handler propagates through the
learner handler's "gradient_booster" member. -/
theorem learner_member_bad_booster (ext : Externals α) (fuel : Nat) (s : String)
    (hs : s ≠ "gbtree") (gms : List (JMember α))
    (hn : ("name", JValue.str s) ∈ gms) (st : LearnerState α) :
    LearnerHandler.Member ext fuel st ("gradient_booster", .obj gms) = none := by
  simp [LearnerHandler.Member, gb_run_bad_name ext fuel s hs gms hn]

/-- A "learner" object containing such a booster makes the learner handler
fail. -/
theorem learner_run_bad_booster (ext : Externals α) (fuel : Nat) (s : String)
    (hs : s ≠ "gbtree") (gms lms : List (JMember α))
    (hg : ("gradient_booster", JValue.obj gms) ∈ lms)
    (hn : ("name", JValue.str s) ∈ gms) (m : Model α) :
    LearnerHandler.run ext fuel m lms = none := by
  unfold LearnerHandler.run
  rw [foldlM_eq_none _ _ (learner_member_bad_booster ext fuel s hs gms hn) lms _ hg]
  rfl

/-- The failure further propagates through the top-level model handler's
"learner" member. -/
theorem model_member_bad_booster (ext : Externals α) (fuel : Nat) (s : String)
    (hs : s ≠ "gbtree") (gms lms : List (JMember α))
    (hg : ("gradient_booster", JValue.obj gms) ∈ lms)
    (hn : ("name", JValue.str s) ∈ gms) (st : XGBoostModelState α) :
    XGBoostModelHandler.Member ext fuel st ("learner", .obj lms) = none := by
  simp [XGBoostModelHandler.Member,
        learner_run_bad_booster ext fuel s hs gms lms hg hn]

/-- The reconstruction loop reads only `left_children`, `right_children`,
`split_indices`, `split_conditions`, `default_left`, `loss_changes` and
`sum_hessian`; two states agreeing on those seven arrays reconstruct
identically. -/
theorem reconstructLoop_congr (st st' : RegTreeState α)
    (h1 : st'.left_children = st.left_children)
    (h2 : st'.right_children = st.right_children)
    (h3 : st'.split_indices = st.split_indices)
    (h4 : st'.split_conditions = st.split_conditions)
    (h5 : st'.default_left = st.default_left)
    (h6 : st'.loss_changes = st.loss_changes)
    (h7 : st'.sum_hessian = st.sum_hessian) :
    ∀ (fuel : Nat) (Q : List (Int × Nat)) (t : XTree α),
      reconstructLoop st' fuel Q t = reconstructLoop st fuel Q t := by
  intro fuel
  induction fuel with
  | zero => intro Q t; cases Q <;> rfl
  | succ fuel ih =>
    intro Q t
    cases Q with
    | nil => rfl
    | cons p Q =>
      obtain ⟨o, n⟩ := p
      simp only [reconstructLoop, h1, h2, h3, h4, h5, h6, h7, ih]

/-! ## Facts about the output tree container operations -/

theorem XTree.modifyNode_length (t : XTree α) (n : Nat) (f : XNode α → XNode α) :
    (t.modifyNode n f).nodes.length = t.nodes.length :=
  List.length_set ..

theorem XTree.modifyNode_get_same (t : XTree α) (n : Nat) (f : XNode α → XNode α)
    (nd : XNode α) (h : t.nodes[n]? = some nd) :
    (t.modifyNode n f).nodes[n]? = some (f nd) := by
  have hlt : n < t.nodes.length := (List.getElem?_eq_some.mp h).1
  unfold XTree.modifyNode
  rw [h]
  simp only [Option.getD_some]
  rw [List.getElem?_set_self']
  simp [hlt]

theorem XTree.modifyNode_get_ne (t : XTree α) (n : Nat) (f : XNode α → XNode α)
    (j : Nat) (h : j ≠ n) :
    (t.modifyNode n f).nodes[j]? = t.nodes[j]? := by
  unfold XTree.modifyNode
  exact List.getElem?_set_ne fun hh => h hh.symm

theorem XTree.AddChilds_length (t : XTree α) (n : Nat) :
    (t.AddChilds n).nodes.length = t.nodes.length + 2 := by
  unfold XTree.AddChilds
  simp [XTree.modifyNode_length]

theorem XTree.AddChilds_get_same (t : XTree α) (n : Nat) (nd : XNode α)
    (h : t.nodes[n]? = some nd) :
    (t.AddChilds n).nodes[n]? =
      some { nd with cleft := some t.nodes.length,
                     cright := some (t.nodes.length + 1) } := by
  have hlt : n < t.nodes.length := (List.getElem?_eq_some.mp h).1
  unfold XTree.AddChilds
  rw [List.getElem?_append_left (by rw [XTree.modifyNode_length]; exact hlt)]
  exact XTree.modifyNode_get_same t n _ nd h

theorem XTree.AddChilds_get_ne (t : XTree α) (n j : Nat) (hj : j < t.nodes.length)
    (hne : j ≠ n) :
    (t.AddChilds n).nodes[j]? = t.nodes[j]? := by
  unfold XTree.AddChilds
  rw [List.getElem?_append_left (by rw [XTree.modifyNode_length]; exact hj)]
  exact XTree.modifyNode_get_ne t n _ j hne

theorem XTree.AddChilds_get_fresh_left (t : XTree α) (n : Nat) :
    (t.AddChilds n).nodes[t.nodes.length]? = some XNode.init := by
  unfold XTree.AddChilds
  rw [List.getElem?_append_right (by rw [XTree.modifyNode_length])]
  simp [XTree.modifyNode_length]

theorem XTree.AddChilds_get_fresh_right (t : XTree α) (n : Nat) :
    (t.AddChilds n).nodes[t.nodes.length + 1]? = some XNode.init := by
  unfold XTree.AddChilds
  rw [List.getElem?_append_right (by rw [XTree.modifyNode_length]; omega)]
  simp [XTree.modifyNode_length]

/-! ## The two loop-branch updates, node by node -/

theorem leafStep_length (t : XTree α) (n : Nat) (v sh : α) :
    ((t.SetLeaf n v).SetSumHess n sh).nodes.length = t.nodes.length := by
  simp [XTree.SetLeaf, XTree.SetSumHess, XTree.modifyNode_length]

theorem leafStep_get_same (t : XTree α) (n : Nat) (v sh : α)
    (h : t.nodes[n]? = some XNode.init) :
    ((t.SetLeaf n v).SetSumHess n sh).nodes[n]? =
      some ⟨none, none, .leaf v, none, some sh⟩ := by
  have h1 := XTree.modifyNode_get_same t n
    (fun nd => { nd with content := .leaf v }) _ h
  exact XTree.modifyNode_get_same (t.SetLeaf n v) n
    (fun nd => { nd with sum_hess := some sh }) _ h1

theorem leafStep_get_ne (t : XTree α) (n : Nat) (v sh : α) (j : Nat) (hj : j ≠ n) :
    ((t.SetLeaf n v).SetSumHess n sh).nodes[j]? = t.nodes[j]? := by
  rw [XTree.SetSumHess, XTree.modifyNode_get_ne _ _ _ _ hj,
      XTree.SetLeaf, XTree.modifyNode_get_ne _ _ _ _ hj]

theorem splitStep_mid_get_same (t : XTree α) (n : Nat) (idx : Int) (thr : α)
    (dl : Bool) (c : Operator) (g : α)
    (h : t.nodes[n]? = some XNode.init) :
    (((t.AddChilds n).SetNumericalSplit n idx thr dl c).SetGain n g).nodes[n]? =
      some ⟨some t.nodes.length, some (t.nodes.length + 1), .split idx thr dl c,
            some g, none⟩ := by
  have h1 := t.AddChilds_get_same n XNode.init h
  have h2 := XTree.modifyNode_get_same (t.AddChilds n) n
    (fun nd => { nd with content := .split idx thr dl c }) _ h1
  exact XTree.modifyNode_get_same ((t.AddChilds n).SetNumericalSplit n idx thr dl c) n
    (fun nd => { nd with gain := some g }) _ h2

theorem splitStep_leftChild (t : XTree α) (n : Nat) (idx : Int) (thr : α)
    (dl : Bool) (c : Operator) (g : α)
    (h : t.nodes[n]? = some XNode.init) :
    (((t.AddChilds n).SetNumericalSplit n idx thr dl c).SetGain n g).LeftChild n =
      some t.nodes.length := by
  rw [XTree.LeftChild, splitStep_mid_get_same t n idx thr dl c g h]
  rfl

theorem splitStep_rightChild (t : XTree α) (n : Nat) (idx : Int) (thr : α)
    (dl : Bool) (c : Operator) (g : α)
    (h : t.nodes[n]? = some XNode.init) :
    (((t.AddChilds n).SetNumericalSplit n idx thr dl c).SetGain n g).RightChild n =
      some (t.nodes.length + 1) := by
  rw [XTree.RightChild, splitStep_mid_get_same t n idx thr dl c g h]
  rfl

theorem splitStep_length (t : XTree α) (n : Nat) (idx : Int) (thr : α)
    (dl : Bool) (c : Operator) (g sh : α) :
    ((((t.AddChilds n).SetNumericalSplit n idx thr dl c).SetGain n g).SetSumHess
        n sh).nodes.length = t.nodes.length + 2 := by
  simp [XTree.SetNumericalSplit, XTree.SetGain, XTree.SetSumHess,
        XTree.modifyNode_length, XTree.AddChilds_length]

theorem splitStep_get_same (t : XTree α) (n : Nat) (idx : Int) (thr : α)
    (dl : Bool) (c : Operator) (g sh : α)
    (h : t.nodes[n]? = some XNode.init) :
    ((((t.AddChilds n).SetNumericalSplit n idx thr dl c).SetGain n g).SetSumHess
        n sh).nodes[n]? =
      some ⟨some t.nodes.length, some (t.nodes.length + 1), .split idx thr dl c,
            some g, some sh⟩ := by
  exact XTree.modifyNode_get_same _ n
    (fun nd => { nd with sum_hess := some sh }) _
    (splitStep_mid_get_same t n idx thr dl c g h)

theorem splitStep_get_ne (t : XTree α) (n : Nat) (idx : Int) (thr : α)
    (dl : Bool) (c : Operator) (g sh : α) (j : Nat) (hj : j < t.nodes.length)
    (hne : j ≠ n) :
    ((((t.AddChilds n).SetNumericalSplit n idx thr dl c).SetGain n g).SetSumHess
        n sh).nodes[j]? = t.nodes[j]? := by
  rw [XTree.SetSumHess, XTree.modifyNode_get_ne _ _ _ _ hne,
      XTree.SetGain, XTree.modifyNode_get_ne _ _ _ _ hne,
      XTree.SetNumericalSplit, XTree.modifyNode_get_ne _ _ _ _ hne,
      t.AddChilds_get_ne n j hj hne]

theorem splitStep_get_fresh_left (t : XTree α) (n : Nat) (idx : Int) (thr : α)
    (dl : Bool) (c : Operator) (g sh : α) (hn : n < t.nodes.length) :
    ((((t.AddChilds n).SetNumericalSplit n idx thr dl c).SetGain n g).SetSumHess
        n sh).nodes[t.nodes.length]? = some XNode.init := by
  have hne : t.nodes.length ≠ n := by omega
  rw [XTree.SetSumHess, XTree.modifyNode_get_ne _ _ _ _ hne,
      XTree.SetGain, XTree.modifyNode_get_ne _ _ _ _ hne,
      XTree.SetNumericalSplit, XTree.modifyNode_get_ne _ _ _ _ hne,
      t.AddChilds_get_fresh_left n]

theorem splitStep_get_fresh_right (t : XTree α) (n : Nat) (idx : Int) (thr : α)
    (dl : Bool) (c : Operator) (g sh : α) (hn : n < t.nodes.length) :
    ((((t.AddChilds n).SetNumericalSplit n idx thr dl c).SetGain n g).SetSumHess
        n sh).nodes[t.nodes.length + 1]? = some XNode.init := by
  have hne : t.nodes.length + 1 ≠ n := by omega
  rw [XTree.SetSumHess, XTree.modifyNode_get_ne _ _ _ _ hne,
      XTree.SetGain, XTree.modifyNode_get_ne _ _ _ _ hne,
      XTree.SetNumericalSplit, XTree.modifyNode_get_ne _ _ _ _ hne,
      t.AddChilds_get_fresh_right n]

/-- Every abstract tree has at least one node. -/
theorem BTree.size_pos (bt : BTree α) : 1 ≤ bt.size := by
  cases bt
  · simp [BTree.size]
  · simp [BTree.size]
    omega

/-- Invariant lemma for the reconstruction loop: a queue of (old ID, new ID)
pairs with distinct, in-bounds, still-unset new IDs whose old IDs decode to
abstract trees is fully realized by the loop: with fuel at least the total
decoded size it succeeds, only appends nodes, preserves every node outside
the queue, and places each decoded tree at its queued new ID. -/
theorem reconstructLoop_realizes (st : RegTreeState α) :
    ∀ (fuel : Nat) (QB : List ((Int × Nat) × BTree α)) (t : XTree α),
      (QB.map fun p => p.1.2).Nodup →
      (∀ p ∈ QB, p.1.2 < t.nodes.length) →
      (∀ p ∈ QB, t.nodes[p.1.2]? = some XNode.init) →
      (∀ p ∈ QB, Decodes st p.1.1 p.2) →
      (QB.map fun p => p.2.size).sum ≤ fuel →
      ∃ t', reconstructLoop st fuel (QB.map Prod.fst) t = some t' ∧
        t.nodes.length ≤ t'.nodes.length ∧
        (∀ j, j < t.nodes.length → j ∉ QB.map (fun p => p.1.2) →
          t'.nodes[j]? = t.nodes[j]?) ∧
        (∀ p ∈ QB, ExtractsTo t' p.1.2 p.2) := by
  intro fuel
  induction fuel with
  | zero =>
    intro QB t hnd hbound hfresh hdec hfuel
    cases QB with
    | nil =>
      exact ⟨t, rfl, le_refl _, fun j _ _ => rfl,
             fun p hp => absurd hp (List.not_mem_nil p)⟩
    | cons p QB' =>
      exfalso
      have h1 := BTree.size_pos p.2
      simp only [List.map_cons, List.sum_cons, Nat.le_zero] at hfuel
      omega
  | succ fuel ih =>
    intro QB t hnd hbound hfresh hdec hfuel
    cases QB with
    | nil =>
      exact ⟨t, rfl, le_refl _, fun j _ _ => rfl,
             fun p hp => absurd hp (List.not_mem_nil p)⟩
    | cons p QB' =>
      obtain ⟨⟨o, n⟩, bt⟩ := p
      have hn_lt : n < t.nodes.length := hbound _ (List.mem_cons_self _ _)
      have hn_fresh : t.nodes[n]? = some XNode.init := hfresh _ (List.mem_cons_self _ _)
      simp only [List.map_cons] at hnd
      have hnd' := List.nodup_cons.mp hnd
      simp only [List.map_cons, List.sum_cons] at hfuel
      cases hdec _ (List.mem_cons_self _ _) with
      | leaf hlc hsc hsh =>
        rename_i value sum_hess
        simp only [List.map_cons, reconstructLoop, hlc, hsc, hsh,
                   Option.bind_eq_bind, Option.some_bind, reduceIte]
        obtain ⟨t', hrun, hlen, hframe, hext⟩ := ih QB'
          ((t.SetLeaf n value).SetSumHess n sum_hess)
          hnd'.2
          (fun p' hp' => by
            rw [leafStep_length]
            exact hbound _ (List.mem_cons_of_mem _ hp'))
          (fun p' hp' => by
            have hne : p'.1.2 ≠ n := fun h =>
              hnd'.1 (h ▸ List.mem_map_of_mem _ hp')
            rw [leafStep_get_ne t n value sum_hess _ hne]
            exact hfresh _ (List.mem_cons_of_mem _ hp'))
          (fun p' hp' => hdec _ (List.mem_cons_of_mem _ hp'))
          (by simp only [BTree.size] at hfuel; omega)
        refine ⟨t', hrun, ?_, ?_, ?_⟩
        · exact le_trans (le_of_eq (leafStep_length t n value sum_hess).symm) hlen
        · intro j hj hjm
          simp only [List.map_cons, List.mem_cons, not_or] at hjm
          rw [hframe j (by rw [leafStep_length]; exact hj) hjm.2,
              leafStep_get_ne t n value sum_hess j hjm.1]
        · intro p' hp'
          rcases List.mem_cons.mp hp' with heq | hp''
          · rw [heq]
            have hgot : t'.nodes[n]? =
                some ⟨none, none, .leaf value, none, some sum_hess⟩ := by
              rw [hframe n (by rw [leafStep_length]; exact hn_lt) hnd'.1]
              exact leafStep_get_same t n value sum_hess hn_fresh
            exact ExtractsTo.leaf hgot rfl rfl
          · exact hext _ hp''
      | node hlc hlcne hrc hidx hthr hdl hg hsh hbl hbr =>
        rename_i lc rc idx thr dl g' sh' bl br
        simp only [List.map_cons, reconstructLoop, hlc, hrc, hidx, hthr, hdl, hg, hsh,
                   Option.bind_eq_bind, Option.some_bind, if_neg hlcne,
                   splitStep_leftChild t n idx thr dl Operator.kLT g' hn_fresh,
                   splitStep_rightChild t n idx thr dl Operator.kLT g' hn_fresh]
        obtain ⟨t', hrun, hlen, hframe, hext⟩ := ih
          (QB' ++ [((lc, t.nodes.length), bl), ((rc, t.nodes.length + 1), br)])
          ((((t.AddChilds n).SetNumericalSplit n idx thr dl .kLT).SetGain n g').SetSumHess n sh')
          (by
            simp only [List.map_append, List.map_cons, List.map_nil]
            rw [List.nodup_append]
            refine ⟨hnd'.2, by simp, ?_⟩
            intro a ha
            obtain ⟨p', hp', rfl⟩ := List.mem_map.mp ha
            have := hbound _ (List.mem_cons_of_mem _ hp')
            simp only [List.mem_cons, List.mem_singleton, List.not_mem_nil]
            intro hcon
            rcases hcon with h | h | h
            · omega
            · omega
            · exact h)
          (fun p' hp' => by
            rw [splitStep_length]
            rcases List.mem_append.mp hp' with hmem | hmem
            · have := hbound _ (List.mem_cons_of_mem _ hmem)
              omega
            · rcases List.mem_cons.mp hmem with heq | hmem'
              · rw [heq]
                show t.nodes.length < t.nodes.length + 2
                omega
              · rcases List.mem_cons.mp hmem' with heq | hmem''
                · rw [heq]
                  show t.nodes.length + 1 < t.nodes.length + 2
                  omega
                · exact absurd hmem'' (List.not_mem_nil _))
          (fun p' hp' => by
            rcases List.mem_append.mp hp' with hmem | hmem
            · have hlt := hbound _ (List.mem_cons_of_mem _ hmem)
              have hne : p'.1.2 ≠ n := fun h =>
                hnd'.1 (h ▸ List.mem_map_of_mem _ hmem)
              rw [splitStep_get_ne t n idx thr dl Operator.kLT g' sh' _ hlt hne]
              exact hfresh _ (List.mem_cons_of_mem _ hmem)
            · rcases List.mem_cons.mp hmem with heq | hmem'
              · rw [heq]
                exact splitStep_get_fresh_left t n idx thr dl Operator.kLT g' sh' hn_lt
              · rcases List.mem_cons.mp hmem' with heq | hmem''
                · rw [heq]
                  exact splitStep_get_fresh_right t n idx thr dl Operator.kLT g' sh' hn_lt
                · exact absurd hmem'' (List.not_mem_nil _))
          (fun p' hp' => by
            rcases List.mem_append.mp hp' with hmem | hmem
            · exact hdec _ (List.mem_cons_of_mem _ hmem)
            · rcases List.mem_cons.mp hmem with heq | hmem'
              · rw [heq]; exact hbl
              · rcases List.mem_cons.mp hmem' with heq | hmem''
                · rw [heq]; exact hbr
                · exact absurd hmem'' (List.not_mem_nil _))
          (by
            simp only [BTree.size] at hfuel
            simp only [List.map_append, List.map_cons, List.map_nil,
                       List.sum_append, List.sum_cons, List.sum_nil]
            omega)
        rw [List.map_append, List.map_cons, List.map_cons, List.map_nil] at hrun
        refine ⟨t', hrun, ?_, ?_, ?_⟩
        · refine le_trans ?_ hlen
          rw [splitStep_length]
          omega
        · intro j hj hjm
          simp only [List.map_cons, List.mem_cons, not_or] at hjm
          have hjm2 : j ∉ ((QB' ++ [((lc, t.nodes.length), bl),
              ((rc, t.nodes.length + 1), br)]).map fun p => p.1.2) := by
            simp only [List.map_append, List.map_cons, List.map_nil,
                       List.mem_append, List.mem_cons, List.not_mem_nil, not_or]
            exact ⟨hjm.2, by omega, by omega, fun h => h⟩
          rw [hframe j (by rw [splitStep_length]; omega) hjm2,
              splitStep_get_ne t n idx thr dl Operator.kLT g' sh' j hj hjm.1]
        · intro p' hp'
          rcases List.mem_cons.mp hp' with heq | hp''
          · rw [heq]
            have hnm : (n : Nat) ∉ ((QB' ++ [((lc, t.nodes.length), bl),
                ((rc, t.nodes.length + 1), br)]).map fun p => p.1.2) := by
              simp only [List.map_append, List.map_cons, List.map_nil,
                         List.mem_append, List.mem_cons, List.not_mem_nil, not_or]
              exact ⟨hnd'.1, by omega, by omega, fun h => h⟩
            have hgot : t'.nodes[n]? =
                some ⟨some t.nodes.length, some (t.nodes.length + 1),
                      .split idx thr dl .kLT, some g', some sh'⟩ := by
              rw [hframe n (by rw [splitStep_length]; omega) hnm]
              exact splitStep_get_same t n idx thr dl Operator.kLT g' sh' hn_fresh
            exact ExtractsTo.node hgot rfl rfl rfl rfl rfl
              (hext ((lc, t.nodes.length), bl) (by simp))
              (hext ((rc, t.nodes.length + 1), br) (by simp))
          · exact hext _ (List.mem_append_left _ hp'')

/-! ## Claim instances -/

/-- C2: when the tree object closes, any one of the ten parallel arrays
having a length different from the declared `num_nodes` makes the handler
reject: `EndObject` returns failure and no tree (truncated or otherwise) is
produced. -/
theorem c2_array_length_mismatch_rejects (fuel : Nat) (st : RegTreeState α)
    (h : st.num_nodes ≠ (st.loss_changes.length : Int) ∨
         st.num_nodes ≠ (st.sum_hessian.length : Int) ∨
         st.num_nodes ≠ (st.base_weights.length : Int) ∨
         st.num_nodes ≠ (st.leaf_child_counts.length : Int) ∨
         st.num_nodes ≠ (st.left_children.length : Int) ∨
         st.num_nodes ≠ (st.right_children.length : Int) ∨
         st.num_nodes ≠ (st.parents.length : Int) ∨
         st.num_nodes ≠ (st.split_indices.length : Int) ∨
         st.num_nodes ≠ (st.split_conditions.length : Int) ∨
         st.num_nodes ≠ (st.default_left.length : Int)) :
    RegTreeHandler.EndObject fuel st = none := by
  unfold RegTreeHandler.EndObject
  rw [if_pos h]

/-- Closed instance of C2: a three-node tree whose "parents" array is one
element short is rejected. -/
theorem c2_witness :
    ({ st3 with parents := [-1, 0] } : RegTreeState Int).num_nodes ≠
      (({ st3 with parents := [-1, 0] } : RegTreeState Int).parents.length : Int) ∧
    RegTreeHandler.EndObject 3 ({ st3 with parents := [-1, 0] } : RegTreeState Int) = none :=
  ⟨by decide,
   c2_array_length_mismatch_rejects 3 _
     (by right; right; right; right; right; right; left; decide)⟩

/-- C3: on top-level model close with the required two members and a parsed
version sequence led by `v0`, the global parameter block is back-transformed
by `TransformGlobalBiasToMargin` exactly when `v0 ≥ 1` (a version-0 export
passes through untransformed), the transform is applied exactly once, and the
random-forest flag is cleared. -/
theorem c3_version_gated_bias_transform (ext : Externals α)
    (st : XGBoostModelState α) (v0 : Nat) (rest : List Nat)
    (hv : st.version = v0 :: rest) :
    XGBoostModelHandler.EndObject ext 2 st =
      some (if 1 ≤ v0 then
              { st.output with random_forest_flag := false,
                               param := ext.transformGlobalBiasToMargin st.output.param }
            else { st.output with random_forest_flag := false }) := by
  unfold XGBoostModelHandler.EndObject
  rw [hv]
  simp

/-- Closed instance of C3: with version sequence `[1, 0, 0]` the transform is
applied to the stored bias. -/
theorem c3_witness :
    XGBoostModelHandler.EndObject extC 2
        { output := mC9, version := [1, 0, 0] } =
      some { mC9 with random_forest_flag := false,
                      param := extC.transformGlobalBiasToMargin mC9.param } := by
  have h := c3_version_gated_bias_transform extC
    { output := mC9, version := [1, 0, 0] } 1 [0, 0] rfl
  simpa using h

/-- C4: a gradient-booster "name" string other than "gbtree" is rejected by
the gradient-booster handler, and a document containing such a booster fails
to load entirely: no model is produced. -/
theorem c4_unsupported_booster_rejected [Inhabited α] (ext : Externals α)
    (fuel : Nat) (s : String) (hs : s ≠ "gbtree")
    (dms lms gms : List (JMember α))
    (hl : ("learner", JValue.obj lms) ∈ dms)
    (hg : ("gradient_booster", JValue.obj gms) ∈ lms)
    (hn : ("name", JValue.str s) ∈ gms) :
    (∀ m : Model α, GradientBoosterHandler.Member ext fuel m ("name", .str s) = none) ∧
    ParseStream ext fuel (.obj dms) = none := by
  refine ⟨gb_member_bad_name ext fuel s hs, ?_⟩
  simp only [ParseStream, RootHandler.StartObject, XGBoostModelHandler.run]
  rw [foldlM_eq_none _ _ (model_member_bad_booster ext fuel s hs gms lms hg hn) dms _ hl]
  rfl

/-- Closed instance of C4: a "gblinear" booster makes the whole load fail. -/
theorem c4_witness :
    ParseStream extC 1 docC4 = none :=
  (c4_unsupported_booster_rejected extC 1 "gblinear" (by decide)
      [("version", .arr [.unsigned 1]),
       ("learner", .obj [("gradient_booster", .obj [("name", .str "gblinear")])])]
      [("gradient_booster", .obj [("name", .str "gblinear")])]
      [("name", .str "gblinear")]
      (by simp) (by simp) (by simp)).2

/-- Counterexample to C5 as stated: this document has exactly the two
recognized members "version" and "learner", yet the load fails, because the
"version" array is empty and the handler's finalization reads its (absent)
leading element. -/
theorem c5_counterexample : ParseStream extC 1 docC5 = none := by
  rfl

/-- C5 (amended): the top-level model handler rejects whenever the member
count differs from 2; with member count 2 and the two recognized members it
succeeds provided the parsed version sequence is non-empty. -/
theorem c5_member_count_check (ext : Externals α) (st : XGBoostModelState α)
    (memberCount : Nat) :
    (memberCount ≠ 2 → XGBoostModelHandler.EndObject ext memberCount st = none) ∧
    (st.version ≠ [] → ∃ m, XGBoostModelHandler.EndObject ext 2 st = some m) := by
  constructor
  · intro h
    unfold XGBoostModelHandler.EndObject
    rw [if_pos h]
  · intro h
    unfold XGBoostModelHandler.EndObject
    cases hv : st.version with
    | nil => exact absurd hv h
    | cons v0 rest => simp

/-- Closed instance of the amended C5: member count 3 is rejected; member
count 2 with a non-empty version sequence succeeds. -/
theorem c5_witness :
    XGBoostModelHandler.EndObject extC 3 { output := mC9, version := [1] } = none ∧
    ∃ m, XGBoostModelHandler.EndObject extC 2 { output := mC9, version := [1] } = some m :=
  ⟨(c5_member_count_check extC { output := mC9, version := [1] } 3).1 (by decide),
   (c5_member_count_check extC { output := mC9, version := [1] } 3).2 (by decide)⟩

/-- C6: for a string-valued member of "tree_param": key "num_nodes" assigns
the parsed (`atoi`) node count; keys "num_feature", "size_leaf_vector" and
"num_deleted" are accepted and ignored; any other key is rejected. -/
theorem c6_tree_param_keys (ext : Externals α) (out : Int) (k s : String) :
    TreeParamHandler.String ext "num_nodes" s out = some (ext.atoi s) ∧
    ((k = "num_feature" ∨ k = "size_leaf_vector" ∨ k = "num_deleted") →
      TreeParamHandler.String ext k s out = some out) ∧
    (k ≠ "num_nodes" → k ≠ "num_feature" → k ≠ "size_leaf_vector" →
      k ≠ "num_deleted" → TreeParamHandler.String ext k s out = none) := by
  refine ⟨by simp [TreeParamHandler.String], ?_, ?_⟩
  · rintro (rfl | rfl | rfl) <;> simp [TreeParamHandler.String]
  · intro h1 h2 h3 h4
    simp [TreeParamHandler.String, h1, h2, h3, h4]

/-- Closed instance of C6 at key "max_depth". -/
theorem c6_witness :
    TreeParamHandler.String extC "num_nodes" "3" 0 = some (extC.atoi "3") ∧
    TreeParamHandler.String extC "num_deleted" "3" 0 = some 0 ∧
    TreeParamHandler.String extC "max_depth" "3" 0 = none :=
  ⟨(c6_tree_param_keys extC 0 "num_deleted" "3").1,
   (c6_tree_param_keys extC 0 "num_deleted" "3").2.1 (by decide),
   (c6_tree_param_keys extC 0 "max_depth" "3").2.2
     (by decide) (by decide) (by decide) (by decide)⟩

/-- C7: a "num_class" member of the learner parameters stores
`max(atoi(str), 1)` as the number of output groups, which is therefore always
at least 1. -/
theorem c7_num_class_clamped (ext : Externals α) (s : String) (m : Model α) :
    ∃ m', LearnerParamHandler.String ext "num_class" s m = some m' ∧
      m'.num_output_group = max (ext.atoi s) 1 ∧ 1 ≤ m'.num_output_group := by
  refine ⟨{ m with num_output_group := max (ext.atoi s) 1 }, ?_, rfl, le_max_right _ _⟩
  simp [LearnerParamHandler.String]

/-- C9: parsing is deterministic — two parses of the same document that both
produce a model produce the same model. -/
theorem c9_parse_deterministic [Inhabited α] (ext : Externals α) (fuel : Nat)
    (doc : JValue α) (m₁ m₂ : Model α)
    (h₁ : ParseStream ext fuel doc = some m₁)
    (h₂ : ParseStream ext fuel doc = some m₂) : m₁ = m₂ := by
  rw [h₁] at h₂
  exact Option.some.inj h₂

/-- Closed instance of C9: a concrete document parses (twice) to the same
concrete model. -/
theorem c9_witness : ParseStream extC 1 docC9 = some mC9 ∧ mC9 = mC9 :=
  ⟨rfl, c9_parse_deterministic extC 1 docC9 mC9 mC9 rfl rfl⟩

/-- C10: with the member-count check passed, the top-level finalization is
defined (returns a model) exactly when the parsed version sequence is
non-empty: the unchecked `version[0]` read is the only remaining failure
point. -/
theorem c10_finalize_defined_iff_version_nonempty (ext : Externals α)
    (st : XGBoostModelState α) :
    (XGBoostModelHandler.EndObject ext 2 st).isSome ↔ st.version ≠ [] := by
  unfold XGBoostModelHandler.EndObject
  cases hv : st.version <;> simp [hv]

/-- C8: the reconstructed tree does not depend on the contents of the
"base_weights" and "leaf_child_counts" arrays, only on their lengths:
replacing them by arrays of the same lengths leaves the result of
`RegTreeHandler::EndObject` unchanged. -/
theorem c8_unused_arrays_do_not_affect_output (fuel : Nat) (st : RegTreeState α)
    (bw : List α) (lcc : List Int)
    (hbw : bw.length = st.base_weights.length)
    (hlcc : lcc.length = st.leaf_child_counts.length) :
    RegTreeHandler.EndObject fuel
        { st with base_weights := bw, leaf_child_counts := lcc } =
      RegTreeHandler.EndObject fuel st := by
  unfold RegTreeHandler.EndObject
  simp only [hbw, hlcc,
    reconstructLoop_congr st { st with base_weights := bw, leaf_child_counts := lcc }
      rfl rfl rfl rfl rfl rfl rfl]

/-- Closed instance of C8: scrambling the two unused arrays of the three-node
example leaves the reconstruction unchanged. -/
theorem c8_witness :
    ([(9 : Int), 8, 7] : List Int).length = st3.base_weights.length ∧
    RegTreeHandler.EndObject 3 { st3 with base_weights := [9, 8, 7],
                                          leaf_child_counts := [5, 5, 5] } =
      RegTreeHandler.EndObject 3 st3 :=
  ⟨by decide,
   c8_unused_arrays_do_not_affect_output 3 st3 [9, 8, 7] [5, 5, 5] (by decide) (by decide)⟩

/-- C1: for a tree whose ten parallel arrays all have length `num_nodes` and
encode a well-formed binary tree rooted at old ID 0 (`Decodes`), the
reconstruction performed on the tree object's EndObject succeeds, and the
output tree realizes that abstract tree from the root: the node reached for
old ID `i` is a leaf with value `split_conditions[i]` exactly when
`left_children[i] = -1`, and otherwise a numerical split on feature
`split_indices[i]` with threshold `split_conditions[i]`, default-branch flag
`default_left[i]`, strictly-less-than comparison and gain `loss_changes[i]`,
whose children correspond to old IDs `left_children[i]` and
`right_children[i]`; in both cases the node's sum-of-statistics is
`sum_hessian[i]`. -/
theorem c1_endobject_reconstructs_decoded_tree (fuel : Nat)
    (st : RegTreeState α) (bt : BTree α) (hlen : st.lengthsOk)
    (hdec : Decodes st 0 bt) (hfuel : bt.size ≤ fuel) :
    ∃ t', RegTreeHandler.EndObject fuel st = some t' ∧ ExtractsTo t' 0 bt := by
  obtain ⟨h1, h2, h3, h4, h5, h6, h7, h8, h9, h10⟩ := hlen
  obtain ⟨t', hrun, hgrow, hframe, hext⟩ := reconstructLoop_realizes st fuel
    [((0, 0), bt)] XTree.Init
    (by simp)
    (by
      intro p hp
      rw [List.mem_singleton.mp hp]
      show 0 < XTree.Init.nodes.length
      simp [XTree.Init])
    (by
      intro p hp
      rw [List.mem_singleton.mp hp]
      show XTree.Init.nodes[(0 : Nat)]? = some XNode.init
      simp [XTree.Init])
    (by
      intro p hp
      rw [List.mem_singleton.mp hp]
      exact hdec)
    (by simpa using hfuel)
  refine ⟨t', ?_, hext _ (List.mem_singleton_self _)⟩
  unfold RegTreeHandler.EndObject
  rw [if_neg (by simp [h1, h2, h3, h4, h5, h6, h7, h8, h9, h10])]
  simpa using hrun

/-- Closed instance of C1: the spec's three-node example reconstructs to the
expected abstract tree. -/
theorem c1_witness :
    st3.lengthsOk ∧
    ∃ t', RegTreeHandler.EndObject 3 st3 = some t' ∧ ExtractsTo t' 0 bt3 := by
  have hlen : st3.lengthsOk := by
    unfold RegTreeState.lengthsOk
    decide
  have hleft : Decodes st3 1 (BTree.leaf 11 3) :=
    Decodes.leaf (by decide) (by decide) (by decide)
  have hright : Decodes st3 2 (BTree.leaf 22 4) :=
    Decodes.leaf (by decide) (by decide) (by decide)
  have e1 : intGet st3.left_children 0 = some 1 := by decide
  have e2 : intGet st3.right_children 0 = some 2 := by decide
  have e3 : intGet st3.split_indices 0 = some 5 := by decide
  have e4 : intGet st3.split_conditions 0 = some 100 := by decide
  have e5 : intGet st3.default_left 0 = some true := by decide
  have e6 : intGet st3.loss_changes 0 = some 10 := by decide
  have e7 : intGet st3.sum_hessian 0 = some 7 := by decide
  have hdec : Decodes st3 0 bt3 :=
    Decodes.node e1 (by decide) e2 e3 e4 e5 e6 e7 hleft hright
  exact ⟨hlen, c1_endobject_reconstructs_decoded_tree 3 st3 bt3 hlen hdec (by decide)⟩

end XGBoostJson
